import Mathlib

/-!
Verification development for the `zeit` activity tracker.

The Python sources are shallowly embedded as Lean definitions:

* ISO-8601 timestamp strings are modelled by a structured `Timestamp` value
  carrying the calendar-date part and a seconds-of-day part;
  `datetime.fromisoformat` composed with `strftime("%Y-%m-%d")` becomes the
  projection onto the date part, and `datetime.fromisoformat` on a stored
  timestamp becomes the identity.
* Python dicts (insertion-ordered, as used for counting) are modelled by
  association lists updated in place.
* Python float arithmetic on percentages is modelled by exact rationals.
* Fallible calls (model calls, OS queries) are modelled by `Option`/`Except`
  valued outcomes supplied as inputs; a caught exception that the source turns
  into `None` is `Option.none`, an uncaught exception is `Except.error`.
-/

namespace Zeit

/-- `zeit.core.activity_id.Activity`: the closed classifier output enum. -/
inductive Activity where
  | PERSONAL_BROWSING
  | SOCIAL_MEDIA
  | YOUTUBE_ENTERTAINMENT
  | PERSONAL_EMAIL
  | PERSONAL_AI_USE
  | PERSONAL_FINANCES
  | PROFESSIONAL_DEVELOPMENT
  | ONLINE_SHOPPING
  | PERSONAL_CALENDAR
  | ENTERTAINMENT
  | SLACK
  | WORK_EMAIL
  | ZOOM_MEETING
  | WORK_CODING
  | WORK_BROWSING
  | WORK_CALENDAR
  deriving DecidableEq, Repr

/-- `zeit.core.activity_id.ExtendedActivity`: `Activity` plus `IDLE`. -/
inductive ExtendedActivity where
  | PERSONAL_BROWSING
  | SOCIAL_MEDIA
  | YOUTUBE_ENTERTAINMENT
  | PERSONAL_EMAIL
  | PERSONAL_AI_USE
  | PERSONAL_FINANCES
  | PROFESSIONAL_DEVELOPMENT
  | ONLINE_SHOPPING
  | PERSONAL_CALENDAR
  | ENTERTAINMENT
  | SLACK
  | WORK_EMAIL
  | ZOOM_MEETING
  | WORK_CODING
  | WORK_BROWSING
  | WORK_CALENDAR
  | IDLE
  deriving DecidableEq, Repr

/-- `ExtendedActivity(activities_response.main_activity.value)` in
`ActivityEntry.from_response`: the value-preserving injection. -/
def activityToExtended : Activity → ExtendedActivity
  | .PERSONAL_BROWSING => .PERSONAL_BROWSING
  | .SOCIAL_MEDIA => .SOCIAL_MEDIA
  | .YOUTUBE_ENTERTAINMENT => .YOUTUBE_ENTERTAINMENT
  | .PERSONAL_EMAIL => .PERSONAL_EMAIL
  | .PERSONAL_AI_USE => .PERSONAL_AI_USE
  | .PERSONAL_FINANCES => .PERSONAL_FINANCES
  | .PROFESSIONAL_DEVELOPMENT => .PROFESSIONAL_DEVELOPMENT
  | .ONLINE_SHOPPING => .ONLINE_SHOPPING
  | .PERSONAL_CALENDAR => .PERSONAL_CALENDAR
  | .ENTERTAINMENT => .ENTERTAINMENT
  | .SLACK => .SLACK
  | .WORK_EMAIL => .WORK_EMAIL
  | .ZOOM_MEETING => .ZOOM_MEETING
  | .WORK_CODING => .WORK_CODING
  | .WORK_BROWSING => .WORK_BROWSING
  | .WORK_CALENDAR => .WORK_CALENDAR

/-- The `.value` string of an `ExtendedActivity` member. -/
def extendedActivityValue : ExtendedActivity → String
  | .PERSONAL_BROWSING => "personal_browsing"
  | .SOCIAL_MEDIA => "social_media"
  | .YOUTUBE_ENTERTAINMENT => "youtube_entertainment"
  | .PERSONAL_EMAIL => "personal_email"
  | .PERSONAL_AI_USE => "personal_ai_use"
  | .PERSONAL_FINANCES => "personal_finances"
  | .PROFESSIONAL_DEVELOPMENT => "professional_development"
  | .ONLINE_SHOPPING => "online_shopping"
  | .PERSONAL_CALENDAR => "personal_calendar"
  | .ENTERTAINMENT => "entertainment"
  | .SLACK => "slack"
  | .WORK_EMAIL => "work_email"
  | .ZOOM_MEETING => "zoom_meeting"
  | .WORK_CODING => "work_coding"
  | .WORK_BROWSING => "work_browsing"
  | .WORK_CALENDAR => "work_calendar"
  | .IDLE => "idle"

/-- Structured model of an ISO-8601 timestamp: the `YYYY-MM-DD` date part and
the seconds-of-day part (`strftime("%Y-%m-%d")` is the `date` projection). -/
structure Timestamp where
  date : String
  secondsOfDay : Nat
  deriving DecidableEq, Repr

/-- `db.ActivityEntry`: one sampled activity. -/
structure ActivityEntry where
  timestamp : Timestamp
  activity : ExtendedActivity
  reasoning : Option String
  deriving DecidableEq, Repr

/-- `ActivityEntry.idle`: the entry written when the system is idle. -/
def ActivityEntry.idle (timestamp : Timestamp) : ActivityEntry :=
  { timestamp := timestamp, activity := .IDLE, reasoning := none }

namespace Aggregation

/-- `activity_summarization.ActivityWithPercentage` (percentage as `ℚ`). -/
structure ActivityWithPercentage where
  activity : ExtendedActivity
  percentage : ℚ
  deriving DecidableEq, Repr

/-- `activity_summarization.ActivityGroup`: one maximal run of equal
consecutive activities. -/
structure ActivityGroup where
  activity : ExtendedActivity
  start_time : Timestamp
  end_time : Timestamp
  duration_minutes : Nat
  reasonings : List String
  merged_reasoning : Option String
  deriving DecidableEq, Repr

/-- In-place increment of an insertion-ordered association list; models
`summary[activity] = summary.get(activity, 0) + 1` on a Python dict. -/
def bumpCount (acc : List (ExtendedActivity × Nat)) (a : ExtendedActivity) :
    List (ExtendedActivity × Nat) :=
  match acc with
  | [] => [(a, 1)]
  | (k, c) :: rest => if k = a then (k, c + 1) :: rest else (k, c) :: bumpCount rest a

/-- The counting loop of `compute_summary`: IDLE entries are skipped. -/
def summaryCounts (entries : List ActivityEntry) : List (ExtendedActivity × Nat) :=
  entries.foldl
    (fun acc entry =>
      if entry.activity = ExtendedActivity.IDLE then acc else bumpCount acc entry.activity)
    []

/-- `activity_summarization.compute_summary`: per-activity percentage breakdown
excluding IDLE, sorted by count descending (`key=lambda x: -x[1]`, stable). -/
def compute_summary (entries : List ActivityEntry) : List ActivityWithPercentage :=
  let summary := summaryCounts entries
  let sorted_summary := summary.mergeSort fun x y => x.2 ≥ y.2
  let total_activities := (summary.map Prod.snd).sum
  if total_activities = 0 then []
  else
    sorted_summary.map fun p =>
      { activity := p.1, percentage := ((p.2 : ℚ) / (total_activities : ℚ)) * 100 }

/-- Truthiness filter of `[e.reasoning for e in entries if e.reasoning]`:
`None` and the empty string are dropped. -/
def presentReasoning (e : ActivityEntry) : Option String :=
  match e.reasoning with
  | none => none
  | some r => if r = "" then none else some r

/-- `activity_summarization._create_group` on the nonempty run
`first :: rest` (`datetime.fromisoformat` on a stored timestamp is modelled by
the identity). -/
def _create_group (first : ActivityEntry) (rest : List ActivityEntry) : ActivityGroup :=
  { activity := first.activity
    start_time := first.timestamp
    end_time := (rest.getLastD first).timestamp
    duration_minutes := (first :: rest).length
    reasonings := (first :: rest).filterMap presentReasoning
    merged_reasoning := none }

/-- One iteration of the loop in `group_consecutive_activities`: the state is
(finished groups, first entry of the current run, its remaining entries). -/
def groupStep (st : List ActivityGroup × ActivityEntry × List ActivityEntry)
    (entry : ActivityEntry) : List ActivityGroup × ActivityEntry × List ActivityEntry :=
  let (groups, c, cs) := st
  if entry.activity = c.activity then (groups, c, cs ++ [entry])
  else (groups ++ [_create_group c cs], entry, [])

/-- Closing the loop of `group_consecutive_activities`: append the group for
the still-open run (`groups.append(_create_group(current_entries))`). -/
def finishGroups (st : List ActivityGroup × ActivityEntry × List ActivityEntry) :
    List ActivityGroup :=
  st.1 ++ [_create_group st.2.1 st.2.2]

/-- `activity_summarization.group_consecutive_activities`. -/
def group_consecutive_activities (entries : List ActivityEntry) : List ActivityGroup :=
  match entries.filter (fun e => e.activity ≠ ExtendedActivity.IDLE) with
  | [] => []
  | first :: rest => finishGroups (rest.foldl groupStep ([], first, []))

/-- The length of `dropWhile` is at most the length of the input list. -/
lemma length_dropWhile_le {α : Type} (p : α → Bool) (l : List α) :
    (l.dropWhile p).length ≤ l.length := by
  induction l with
  | nil => simp [List.dropWhile]
  | cons a as ih =>
    by_cases h : p a
    · simp only [List.dropWhile, h]
      exact Nat.le_trans ih (Nat.le_succ _)
    · simp [List.dropWhile, h]

/-- Specification-side decomposition of a list into its maximal runs of equal
consecutive activities, each run as (first entry, rest of the run). -/
def chunkRuns : List ActivityEntry → List (ActivityEntry × List ActivityEntry)
  | [] => []
  | e :: es =>
    (e, es.takeWhile fun x => x.activity = e.activity) ::
      chunkRuns (es.dropWhile fun x => x.activity = e.activity)
termination_by l => l.length
decreasing_by
  simp only [List.length_cons]
  exact Nat.lt_succ_of_le (length_dropWhile_le _ _)

end Aggregation

namespace Stats

/-- `activity_stats.WORK_ACTIVITIES`. -/
def WORK_ACTIVITIES : List ExtendedActivity :=
  [.SLACK, .WORK_EMAIL, .ZOOM_MEETING, .WORK_CODING, .WORK_BROWSING, .WORK_CALENDAR]

/-- `activity_stats.PERSONAL_ACTIVITIES`. -/
def PERSONAL_ACTIVITIES : List ExtendedActivity :=
  [.PERSONAL_BROWSING, .SOCIAL_MEDIA, .YOUTUBE_ENTERTAINMENT, .PERSONAL_EMAIL,
   .PERSONAL_AI_USE, .PERSONAL_FINANCES, .PROFESSIONAL_DEVELOPMENT, .ONLINE_SHOPPING,
   .PERSONAL_CALENDAR, .ENTERTAINMENT]

/-- `activity_stats.get_activity_category`. -/
def get_activity_category (activity : ExtendedActivity) : String :=
  if activity ∈ WORK_ACTIVITIES then "work"
  else if activity ∈ PERSONAL_ACTIVITIES then "personal"
  else "system"

/-- `activity_stats.ActivityStat` (percentage as `ℚ`). -/
structure ActivityStat where
  activity : String
  count : Nat
  percentage : ℚ
  category : String
  deriving DecidableEq, Repr

/-- `activity_stats.DayStats`. -/
structure DayStats where
  date : String
  total_samples : Nat
  activities : List ActivityStat
  work_percentage : ℚ
  personal_percentage : ℚ
  idle_percentage : ℚ
  work_count : Nat
  personal_count : Nat
  idle_count : Nat
  deriving DecidableEq, Repr

/-- The counting loop of `compute_day_stats` (all entries counted, IDLE
included), as an insertion-ordered association list. -/
def dayCounts (entries : List ActivityEntry) : List (ExtendedActivity × Nat) :=
  entries.foldl (fun acc entry => Aggregation.bumpCount acc entry.activity) []

/-- `activity_stats.compute_day_stats`. The per-category tallies accumulated
in the counting loop are rendered as sums over the counts list; the final
stats list is sorted by percentage descending (stable). -/
def compute_day_stats (date_str : String) (entries : List ActivityEntry) : DayStats :=
  let total := entries.length
  if total = 0 then
    { date := date_str, total_samples := 0, activities := [],
      work_percentage := 0, personal_percentage := 0, idle_percentage := 0,
      work_count := 0, personal_count := 0, idle_count := 0 }
  else
    let counts := dayCounts entries
    let activity_stats := counts.map fun p =>
      { activity := extendedActivityValue p.1
        count := p.2
        percentage := ((p.2 : ℚ) / (total : ℚ)) * 100
        category := get_activity_category p.1 : ActivityStat }
    let work_count :=
      ((counts.filter fun p => get_activity_category p.1 = "work").map Prod.snd).sum
    let personal_count :=
      ((counts.filter fun p => get_activity_category p.1 = "personal").map Prod.snd).sum
    let idle_count :=
      ((counts.filter fun p =>
        get_activity_category p.1 ≠ "work" ∧ get_activity_category p.1 ≠ "personal").map
          Prod.snd).sum
    { date := date_str
      total_samples := total
      activities := activity_stats.mergeSort fun x y => x.percentage ≥ y.percentage
      work_percentage := ((work_count : ℚ) / (total : ℚ)) * 100
      personal_percentage := ((personal_count : ℚ) / (total : ℚ)) * 100
      idle_percentage := ((idle_count : ℚ) / (total : ℚ)) * 100
      work_count := work_count
      personal_count := personal_count
      idle_count := idle_count }

end Stats

namespace Gate

/-- `config.WorkHoursConfig`: the two `HH:MM` bounds, as seconds of day. -/
structure WorkHoursConfig where
  work_start_hour : Nat
  work_end_hour : Nat
  deriving DecidableEq, Repr

/-- A `datetime` reduced to what the gate reads: `weekday()` (0 = Monday,
6 = Sunday) and the time of day in seconds. -/
structure CheckTime where
  weekday : Fin 7
  timeOfDay : Nat
  deriving DecidableEq, Repr

/-- `WorkHoursConfig.is_within_work_hours`. -/
def is_within_work_hours (cfg : WorkHoursConfig) (check_time : CheckTime) : Bool :=
  if check_time.weekday.val > 4 then false
  else if check_time.timeOfDay < cfg.work_start_hour ∨
          check_time.timeOfDay ≥ cfg.work_end_hour then false
  else true

/-- Two-digit zero padding, as in `strftime`. -/
def pad2 (n : Nat) : String := if n < 10 then "0" ++ toString n else toString n

/-- `strftime("%H:%M")` on a seconds-of-day value. -/
def formatHM (s : Nat) : String := pad2 (s / 3600) ++ ":" ++ pad2 (s % 3600 / 60)

/-- `strftime("%A")`: the weekday name, 0 = Monday. -/
def dayName (w : Fin 7) : String :=
  ["Monday", "Tuesday", "Wednesday", "Thursday", "Friday", "Saturday", "Sunday"].getD w.val ""

/-- `WorkHoursConfig.get_status_message`. -/
def get_status_message (cfg : WorkHoursConfig) (check_time : CheckTime) : String :=
  if check_time.weekday.val > 4 then
    "Outside work hours (" ++ dayName check_time.weekday ++ ")"
  else if check_time.timeOfDay < cfg.work_start_hour then
    "Outside work hours (Before " ++ formatHM cfg.work_start_hour ++ ")"
  else if check_time.timeOfDay ≥ cfg.work_end_hour then
    "Outside work hours (After " ++ formatHM cfg.work_end_hour ++ ")"
  else "Within work hours"

/-- `ui.tracking_state.TrackingState`. -/
structure TrackingState where
  icon : String
  status_message : String
  can_toggle : Bool
  deriving DecidableEq, Repr

/-- `TrackingState.not_within_work_hours`. -/
def TrackingState.not_within_work_hours (status_message : String) : TrackingState :=
  { icon := "🌙", status_message := status_message, can_toggle := false }

/-- `TrackingState.paused_manual`. -/
def TrackingState.paused_manual : TrackingState :=
  { icon := "⏸️", status_message := "Tracking paused (manual)", can_toggle := true }

/-- `TrackingState.active`. -/
def TrackingState.active : TrackingState :=
  { icon := "📊", status_message := "Tracking active", can_toggle := true }

/-- `ZeitMenuBar.get_tracking_state`: the manual-pause signal is the existence
of the stop-flag file. -/
def get_tracking_state (cfg : WorkHoursConfig) (check_time : CheckTime)
    (stop_flag_exists : Bool) : TrackingState :=
  if ¬ is_within_work_hours cfg check_time then
    TrackingState.not_within_work_hours (get_status_message cfg check_time)
  else if stop_flag_exists then TrackingState.paused_manual
  else TrackingState.active

end Gate

namespace Store

/-- `db.DayRecord`. -/
structure DayRecord where
  date : String
  activities : List ActivityEntry
  deriving DecidableEq, Repr

/-- One row of the `daily_activities` table. -/
structure DbRow where
  date : String
  activities : List ActivityEntry
  created_at : String
  updated_at : String
  deriving DecidableEq, Repr

/-- The `daily_activities` table, rows in insertion order. -/
abbrev Database := List DbRow

/-- `DatabaseManager.insert_activity`: the day key is the date part of the
entry's own timestamp; `now` is the wall clock at write time (recorded only in
`created_at`/`updated_at`). -/
def insert_activity (db : Database) (now : String) (activity_entry : ActivityEntry) :
    Database :=
  let date_str := activity_entry.timestamp.date
  match db.find? (fun r => r.date = date_str) with
  | some _ =>
    db.map fun r =>
      if r.date = date_str then
        { r with activities := r.activities ++ [activity_entry], updated_at := now }
      else r
  | none =>
    db ++ [{ date := date_str, activities := [activity_entry],
             created_at := now, updated_at := now }]

/-- `DatabaseManager.get_day_record`. -/
def get_day_record (db : Database) (date_str : String) : Option DayRecord :=
  (db.find? fun r => r.date = date_str).map fun r =>
    { date := r.date, activities := r.activities }

end Store

namespace Idle

/-- `idle_detection.DEFAULT_IDLE_THRESHOLD`. -/
def DEFAULT_IDLE_THRESHOLD : Nat := 300

/-- `idle_detection.is_system_idle`: an undeterminable idle time (the soft
failure of `get_idle_time_seconds`) counts as not idle. -/
def is_system_idle (threshold_seconds : ℚ) (idle_time : Option ℚ) : Bool :=
  match idle_time with
  | none => false
  | some t => t ≥ threshold_seconds

end Idle

namespace Window

/-- `active_window.WindowBounds`. -/
structure WindowBounds where
  x : Int
  y : Int
  width : Int
  height : Int
  deriving DecidableEq, Repr

/-- `active_window.DisplayBounds`. -/
structure DisplayBounds where
  x : Int
  y : Int
  width : Int
  height : Int
  deriving DecidableEq, Repr

/-- `active_window._point_in_display`. -/
def _point_in_display (x y : Int) (display : DisplayBounds) : Bool :=
  display.x ≤ x ∧ x < display.x + display.width ∧
  display.y ≤ y ∧ y < display.y + display.height

/-- `active_window._find_display_for_window`: top-left corner first, window
center as fallback (Python `//` is floor division); raising is modelled by
`Except.error`. -/
def _find_display_for_window (window : WindowBounds) (displays : List DisplayBounds) :
    Except String Nat :=
  match displays.findIdx? (fun d => _point_in_display window.x window.y d) with
  | some idx => .ok idx
  | none =>
    let center_x := window.x + window.width.fdiv 2
    let center_y := window.y + window.height.fdiv 2
    match displays.findIdx? (fun d => _point_in_display center_x center_y d) with
    | some idx => .ok idx
    | none => .error "Window not found on any display"

/-- `active_window.get_active_screen_number`: the OS frontmost-window query is
supplied as an `Except` outcome (`error` = AppleScript failure or timeout). -/
def get_active_screen_number (window_query : Except String WindowBounds)
    (mss_monitors : List DisplayBounds) : Except String Nat :=
  match window_query with
  | .error e => .error e
  | .ok window =>
    if mss_monitors.length = 0 then .error "No monitors found"
    else if mss_monitors.length = 1 then .ok 1
    else (_find_display_for_window window mss_monitors).map (· + 1)

end Window

namespace Classifier

/-- `activity_id.MultiScreenDescription`. -/
structure MultiScreenDescription where
  primary_screen : Nat
  main_activity_description : String
  secondary_context : Option String
  deriving DecidableEq, Repr

/-- `activity_id.ActivitiesResponse`. -/
structure ActivitiesResponse where
  main_activity : Activity
  reasoning : String
  secondary_context : Option String
  deriving DecidableEq, Repr

/-- `activity_id.ActivitiesResponseWithTimestamp`. -/
structure ActivitiesResponseWithTimestamp where
  main_activity : Activity
  reasoning : String
  secondary_context : Option String
  timestamp : Timestamp
  deriving DecidableEq, Repr

/-- `db.ActivityEntry.from_response`. -/
def ActivityEntry.from_response (r : ActivitiesResponseWithTimestamp) : ActivityEntry :=
  { timestamp := r.timestamp
    activity := activityToExtended r.main_activity
    reasoning := some r.reasoning }

/-- Inputs of one run of `ActivityIdentifier.take_screenshot_and_describe`:
the number of captured screenshots, the OS window-query outcome and monitor
layout, and the outcomes of the two model stages. `stageA = none` is any
caught Stage-A failure (transport error, timeout, missing structured payload,
schema-validation failure), and likewise `stageB = none` for Stage B. -/
structure CaptureEnv where
  screenshotCount : Nat
  windowQuery : Except String Window.WindowBounds
  monitors : List Window.DisplayBounds
  stageA : Option MultiScreenDescription
  stageB : Option ActivitiesResponse
  deriving Repr

/-- `ActivityIdentifier.take_screenshot_and_describe`: with more than one
screenshot the active-screen hint is computed by an unguarded call to
`get_active_screen_number`, so its exceptions propagate (`Except.error`);
each stage failure that the source catches yields `Option.none` and aborts
with no result (`.ok none`). -/
def take_screenshot_and_describe (env : CaptureEnv) (now : Timestamp) :
    Except String (Option ActivitiesResponseWithTimestamp) :=
  let hint_step : Except String (Option Nat) :=
    if env.screenshotCount > 1 then
      (Window.get_active_screen_number env.windowQuery env.monitors).map some
    else .ok none
  match hint_step with
  | .error e => .error e
  | .ok _hint =>
    match env.stageA with
    | none => .ok none
    | some screen_description =>
      match env.stageB with
      | none => .ok none
      | some activities_response =>
        .ok (some
          { main_activity := activities_response.main_activity
            reasoning := activities_response.reasoning
            secondary_context := screen_description.secondary_context
            timestamp := now })

end Classifier

namespace Tick

/-- Inputs of one run of `zeit.cli.main.track` (one tick): the `--force`
override, the gate inputs (config, evaluation time, stop flag), the idle
check inputs, the tick's start timestamp, the wall clock string handed to the
store, and the capture/classification environment. -/
structure TickEnv where
  force : Bool
  cfg : Gate.WorkHoursConfig
  checkTime : Gate.CheckTime
  stopFlagExists : Bool
  idleThreshold : ℚ
  idleTime : Option ℚ
  now : Timestamp
  wallClock : String
  capture : Classifier.CaptureEnv
  deriving Repr

/-- Observable outcome of one tick: the entries stored by this tick, the
process exit code, whether screen capture and the classification stages were
invoked, and whether the tick died on an uncaught exception. -/
structure TickResult where
  stored : List ActivityEntry
  exitCode : Nat
  captureInvoked : Bool
  classifyInvoked : Bool
  crashed : Bool
  deriving DecidableEq, Repr

/-- `zeit.cli.main.track`, as a function from the tick inputs and the store
state to the tick outcome and the new store state. The pure store model's
insert always succeeds. -/
def trackTick (env : TickEnv) (db : Store.Database) : TickResult × Store.Database :=
  if ¬ env.force ∧ ¬ Gate.is_within_work_hours env.cfg env.checkTime then
    (⟨[], 0, false, false, false⟩, db)
  else if ¬ env.force ∧ env.stopFlagExists then
    (⟨[], 0, false, false, false⟩, db)
  else if Idle.is_system_idle env.idleThreshold env.idleTime then
    let idle_entry := ActivityEntry.idle env.now
    (⟨[idle_entry], 0, false, false, false⟩, Store.insert_activity db env.wallClock idle_entry)
  else
    match Classifier.take_screenshot_and_describe env.capture env.now with
    | .error _ => (⟨[], 1, true, false, true⟩, db)
    | .ok none => (⟨[], 1, true, true, false⟩, db)
    | .ok (some resp) =>
      let activity_entry := Classifier.ActivityEntry.from_response resp
      (⟨[activity_entry], 0, true, true, false⟩,
        Store.insert_activity db env.wallClock activity_entry)

end Tick

namespace Capture

/-- Outcome of capturing one monitor inside
`MultiScreenCapture._capture_all_monitors`: either a screenshot file is
written, or the grab/write raises. -/
inductive CaptureStepOutcome where
  | produce (file : Nat)
  | raiseErr (msg : String)
  deriving DecidableEq, Repr

/-- The capture loop of `_capture_all_monitors`: threads the filesystem
(list of files present) and the local `paths` accumulator; a raise aborts the
loop, keeping the files already written but discarding `paths`
(`self.screenshot_paths` is only assigned on successful return). Returns
(filesystem, files written so far, uncaught error if any). -/
def captureLoop : List CaptureStepOutcome → List Nat → List Nat →
    List Nat × List Nat × Option String
  | [], fs, paths => (fs, paths, none)
  | .produce f :: rest, fs, paths => captureLoop rest (fs ++ [f]) (paths ++ [f])
  | .raiseErr m :: _, fs, paths => (fs, paths, some m)

/-- `MultiScreenCapture.__exit__`: delete every recorded screenshot. -/
def removeAll (fs : List Nat) (paths : List Nat) : List Nat :=
  fs.filter fun f => ¬ paths.contains f

/-- `with MultiScreenCapture(now) as screenshot_paths: body`. If
`__enter__` (the capture loop) raises, Python never calls `__exit__`, so no
cleanup runs; otherwise `__exit__` deletes all recorded paths whether the
body returned normally or raised. Returns (final filesystem, body outcome or
propagated capture exception). -/
def withMultiScreenCapture {α : Type} (steps : List CaptureStepOutcome) (fs : List Nat)
    (body : List Nat → Except String α) : List Nat × Except String α :=
  match captureLoop steps fs [] with
  | (fs1, _, some m) => (fs1, .error m)
  | (fs1, paths, none) => (removeAll fs1 paths, body paths)

end Capture

namespace Examples

/-- 09:00, 09:01, 09:02, 09:03 on a weekday, as structured timestamps. -/
def ts (m : Nat) : Timestamp := { date := "2026-01-05", secondsOfDay := 9 * 3600 + m * 60 }

/-- The spec's example sequence
`[09:00 work_coding, 09:01 work_coding, 09:02 slack, 09:03 work_coding]`. -/
def exampleEntries : List ActivityEntry :=
  [{ timestamp := ts 0, activity := .WORK_CODING, reasoning := some "editing code" },
   { timestamp := ts 1, activity := .WORK_CODING, reasoning := some "still editing" },
   { timestamp := ts 2, activity := .SLACK, reasoning := some "reading messages" },
   { timestamp := ts 3, activity := .WORK_CODING, reasoning := some "back to code" }]

/-- A two-monitor layout for the active-window examples. -/
def twoMonitors : List Window.DisplayBounds :=
  [{ x := 0, y := 0, width := 1920, height := 1080 },
   { x := 1920, y := 0, width := 1920, height := 1080 }]

/-- A window whose top-left corner and center lie on no monitor. -/
def lostWindow : Window.WindowBounds :=
  { x := 10000, y := 10000, width := 10, height := 10 }

/-- A successful Stage-A outcome. -/
def stageAOk : Classifier.MultiScreenDescription :=
  { primary_screen := 1, main_activity_description := "coding in an editor",
    secondary_context := none }

/-- A successful Stage-B outcome. -/
def stageBOk : Classifier.ActivitiesResponse :=
  { main_activity := .WORK_CODING, reasoning := "editor visible", secondary_context := none }

/-- A weekday work-hours configuration and evaluation time. -/
def exampleCfg : Gate.WorkHoursConfig :=
  { work_start_hour := 9 * 3600, work_end_hour := 17 * 3600 + 30 * 60 }

/-- Monday 10:00. -/
def exampleCheckTime : Gate.CheckTime := { weekday := 0, timeOfDay := 10 * 3600 }

/-- A single-screen capture whose Stage A fails. -/
def captureFailA : Classifier.CaptureEnv :=
  { screenshotCount := 1, windowQuery := .error "not queried", monitors := [],
    stageA := none, stageB := none }

/-- Tick inputs reaching the capture path with a failing Stage A. -/
def tickEnvFailA : Tick.TickEnv :=
  { force := false, cfg := exampleCfg, checkTime := exampleCheckTime,
    stopFlagExists := false, idleThreshold := 300, idleTime := some 12,
    now := ts 0, wallClock := "2026-01-05T09:00:30", capture := captureFailA }

/-- Tick inputs on an idle system within work hours. -/
def tickEnvIdle : Tick.TickEnv :=
  { force := false, cfg := exampleCfg, checkTime := exampleCheckTime,
    stopFlagExists := false, idleThreshold := 300, idleTime := some 450,
    now := ts 0, wallClock := "2026-01-05T09:00:30", capture := captureFailA }

/-- A two-screen capture where the OS frontmost-window query fails. -/
def captureQueryFails : Classifier.CaptureEnv :=
  { screenshotCount := 2, windowQuery := .error "AppleScript timed out",
    monitors := twoMonitors, stageA := some stageAOk, stageB := some stageBOk }

/-- A two-screen capture where the window lies on no monitor. -/
def captureWindowLost : Classifier.CaptureEnv :=
  { screenshotCount := 2, windowQuery := .ok lostWindow,
    monitors := twoMonitors, stageA := some stageAOk, stageB := some stageBOk }

/-- Tick inputs reaching the capture path with the failing window query. -/
def tickEnvQueryFails : Tick.TickEnv :=
  { force := false, cfg := exampleCfg, checkTime := exampleCheckTime,
    stopFlagExists := false, idleThreshold := 300, idleTime := none,
    now := ts 0, wallClock := "2026-01-05T09:00:30", capture := captureQueryFails }

end Examples

/-! ## Lemmas and theorems -/

namespace Aggregation

/-- `takeWhile` runs through a prefix on which the predicate holds. -/
lemma takeWhile_append_all {α : Type} (p : α → Bool) (l1 l2 : List α)
    (h : ∀ x ∈ l1, p x = true) :
    (l1 ++ l2).takeWhile p = l1 ++ l2.takeWhile p := by
  induction l1 with
  | nil => simp
  | cons a as ih =>
    have ha := h a (by simp)
    simp only [List.cons_append, List.takeWhile_cons, ha, if_true]
    rw [ih fun x hx => h x (by simp [hx])]

/-- `dropWhile` skips a prefix on which the predicate holds. -/
lemma dropWhile_append_all {α : Type} (p : α → Bool) (l1 l2 : List α)
    (h : ∀ x ∈ l1, p x = true) :
    (l1 ++ l2).dropWhile p = l2.dropWhile p := by
  induction l1 with
  | nil => simp
  | cons a as ih =>
    have ha := h a (by simp)
    simp only [List.cons_append, List.dropWhile_cons, ha, if_true]
    exact ih fun x hx => h x (by simp [hx])

/-- If the predicate holds everywhere, `takeWhile` is the whole list. -/
lemma takeWhile_all_eq {α : Type} (p : α → Bool) (l : List α) (h : ∀ x ∈ l, p x = true) :
    l.takeWhile p = l := by
  have := takeWhile_append_all p l [] h
  simpa using this

/-- If the predicate holds everywhere, `dropWhile` is empty. -/
lemma dropWhile_all_eq {α : Type} (p : α → Bool) (l : List α) (h : ∀ x ∈ l, p x = true) :
    l.dropWhile p = [] := by
  have := dropWhile_append_all p l [] h
  simpa using this

/-- The head surviving `dropWhile` fails the predicate. -/
lemma dropWhile_head_false {α : Type} (p : α → Bool) (l : List α) (y : α) (ys : List α)
    (h : l.dropWhile p = y :: ys) : p y = false := by
  induction l with
  | nil => simp [List.dropWhile] at h
  | cons a as ih =>
    rw [List.dropWhile_cons] at h
    by_cases hp : p a
    · rw [if_pos hp] at h
      exact ih h
    · rw [if_neg hp] at h
      cases h
      simpa using hp

/-- The runs produced by `chunkRuns` concatenate back to the input list. -/
lemma chunkRuns_flatten (l : List ActivityEntry) :
    ((chunkRuns l).map fun p => p.1 :: p.2).flatten = l := by
  induction l using chunkRuns.induct with
  | case1 => simp [chunkRuns]
  | case2 e es ih =>
    rw [chunkRuns]
    simp only [List.map_cons, List.flatten_cons, ih]
    rw [List.cons_append, List.takeWhile_append_dropWhile]

/-- Every entry of a run produced by `chunkRuns` has the run's activity. -/
lemma chunkRuns_uniform (l : List ActivityEntry) :
    ∀ p ∈ chunkRuns l, ∀ x ∈ p.1 :: p.2, x.activity = p.1.activity := by
  induction l using chunkRuns.induct with
  | case1 => simp [chunkRuns]
  | case2 e es ih =>
    rw [chunkRuns]
    intro p hp x hx
    rcases List.mem_cons.mp hp with heq | hmem
    · subst heq
      rcases List.mem_cons.mp hx with hxe | hxt
      · simp [hxe]
      · have := List.mem_takeWhile_imp hxt
        simpa using this
    · exact ih p hmem x hx

/-- Adjacent runs produced by `chunkRuns` carry different activities. -/
lemma chunkRuns_chain (l : List ActivityEntry) :
    List.Chain' (fun p q => p.1.activity ≠ q.1.activity) (chunkRuns l) := by
  induction l using chunkRuns.induct with
  | case1 => simp [chunkRuns]
  | case2 e es ih =>
    rw [chunkRuns]
    rw [List.chain'_cons']
    refine ⟨?_, ih⟩
    intro q hq
    cases hd : es.dropWhile (fun x => x.activity = e.activity) with
    | nil => rw [hd] at hq; simp [chunkRuns] at hq
    | cons y ys =>
      rw [hd] at hq
      rw [chunkRuns] at hq
      simp only [List.head?_cons, Option.mem_def, Option.some.injEq] at hq
      have hy := dropWhile_head_false _ es y ys hd
      subst hq
      simp only [ne_eq]
      intro hcontra
      rw [decide_eq_false_iff_not] at hy
      exact hy hcontra.symm

/-- Invariant of the loop in `group_consecutive_activities`: finishing the
fold from a state whose open run is uniform produces the groups of the
maximal-run decomposition of the remaining input appended to the current run. -/
lemma foldl_groupStep_eq (r : List ActivityEntry) :
    ∀ (groups : List ActivityGroup) (c : ActivityEntry) (cs : List ActivityEntry),
    (∀ x ∈ cs, x.activity = c.activity) →
    finishGroups (r.foldl groupStep (groups, c, cs))
      = groups ++ (chunkRuns (c :: (cs ++ r))).map fun p => _create_group p.1 p.2 := by
  induction r with
  | nil =>
    intro groups c cs h
    simp only [List.foldl_nil, List.append_nil]
    rw [chunkRuns]
    rw [takeWhile_all_eq _ cs (fun x hx => by simpa using h x hx)]
    rw [dropWhile_all_eq _ cs (fun x hx => by simpa using h x hx)]
    simp [chunkRuns, finishGroups]
  | cons e r' ih =>
    intro groups c cs h
    simp only [List.foldl_cons]
    by_cases he : e.activity = c.activity
    · rw [show groupStep (groups, c, cs) e = (groups, c, cs ++ [e]) from by
        simp [groupStep, he]]
      rw [ih groups c (cs ++ [e]) fun x hx => by
        rcases List.mem_append.mp hx with h1 | h2
        · exact h x h1
        · simp only [List.mem_singleton] at h2; subst h2; exact he]
      rw [show (cs ++ [e]) ++ r' = cs ++ (e :: r') from by simp]
    · rw [show groupStep (groups, c, cs) e = (groups ++ [_create_group c cs], e, []) from by
        simp [groupStep, he]]
      rw [ih (groups ++ [_create_group c cs]) e [] (by simp)]
      rw [show chunkRuns (c :: (cs ++ e :: r'))
            = (c, cs) :: chunkRuns (e :: r') from ?_]
      · simp
      · rw [chunkRuns]
        rw [takeWhile_append_all _ cs (e :: r') (fun x hx => by simpa using h x hx)]
        rw [dropWhile_append_all _ cs (e :: r') (fun x hx => by simpa using h x hx)]
        rw [show (e :: r').takeWhile (fun x => x.activity = c.activity) = [] from by
          simp [List.takeWhile_cons, he]]
        rw [show (e :: r').dropWhile (fun x => x.activity = c.activity) = e :: r' from by
          simp [List.dropWhile_cons, he]]
        simp

/-- `group_consecutive_activities` is the maximal-run decomposition of the
IDLE-filtered input, one group per run. -/
lemma group_consecutive_eq_chunkRuns (entries : List ActivityEntry) :
    group_consecutive_activities entries
      = (chunkRuns (entries.filter fun e => e.activity ≠ ExtendedActivity.IDLE)).map
          fun p => _create_group p.1 p.2 := by
  unfold group_consecutive_activities
  cases hf : entries.filter (fun e => e.activity ≠ ExtendedActivity.IDLE) with
  | nil => simp [chunkRuns]
  | cons first rest =>
    have := foldl_groupStep_eq rest [] first [] (by simp)
    simpa using this

/-- C1: `group_consecutive_activities` discards IDLE entries and maps each
maximal run of adjacent remaining entries sharing the same activity to exactly
one group whose `start_time` is the first entry's timestamp, `end_time` the
last entry's timestamp, duration count the run length, and `reasonings` the
entries' (present) reasonings in order; the runs concatenate back to the
IDLE-filtered input, each run is uniform, and adjacent runs differ in
activity, so non-adjacent runs of the same activity are never merged; on the
spec's example `[work_coding, work_coding, slack, work_coding]` this yields
exactly 3 groups with counts 2, 1, 1. -/
theorem grouping_partitions_into_maximal_runs :
    (∀ entries : List ActivityEntry,
      ((chunkRuns (entries.filter fun e => e.activity ≠ ExtendedActivity.IDLE)).map
          (fun p => p.1 :: p.2)).flatten
        = entries.filter (fun e => e.activity ≠ ExtendedActivity.IDLE)
      ∧ (∀ p ∈ chunkRuns (entries.filter fun e => e.activity ≠ ExtendedActivity.IDLE),
          ∀ x ∈ p.1 :: p.2, x.activity = p.1.activity)
      ∧ List.Chain' (fun p q => p.1.activity ≠ q.1.activity)
          (chunkRuns (entries.filter fun e => e.activity ≠ ExtendedActivity.IDLE))
      ∧ group_consecutive_activities entries
          = (chunkRuns (entries.filter fun e => e.activity ≠ ExtendedActivity.IDLE)).map
              (fun p =>
                { activity := p.1.activity
                  start_time := p.1.timestamp
                  end_time := (p.2.getLastD p.1).timestamp
                  duration_minutes := (p.1 :: p.2).length
                  reasonings := (p.1 :: p.2).filterMap presentReasoning
                  merged_reasoning := none }))
    ∧ (group_consecutive_activities Examples.exampleEntries).map
        (fun g => (g.activity, g.duration_minutes))
        = [(ExtendedActivity.WORK_CODING, 2), (ExtendedActivity.SLACK, 1),
           (ExtendedActivity.WORK_CODING, 1)] := by
  constructor
  · intro entries
    exact ⟨chunkRuns_flatten _, chunkRuns_uniform _, chunkRuns_chain _,
      group_consecutive_eq_chunkRuns entries⟩
  · decide

/-- C7: `group_consecutive_activities` is stable: re-expanding each group of
its output back into its constituent run of entries, concatenating the runs
in order, and re-running the grouping reproduces the original output. -/
theorem grouping_stable_under_regrouping (entries : List ActivityEntry) :
    group_consecutive_activities
        (((chunkRuns (entries.filter fun e => e.activity ≠ ExtendedActivity.IDLE)).map
            (fun p => p.1 :: p.2)).flatten)
      = group_consecutive_activities entries := by
  rw [chunkRuns_flatten]
  unfold group_consecutive_activities
  rw [List.filter_filter]
  simp only [Bool.and_self]

/-- C10: on input with no non-IDLE entry, `compute_summary` and
`group_consecutive_activities` both return the empty list (the zero-total
percentage division is guarded and never reached). -/
theorem degenerate_input_yields_empty (entries : List ActivityEntry)
    (h : ∀ e ∈ entries, e.activity = ExtendedActivity.IDLE) :
    compute_summary entries = [] ∧ group_consecutive_activities entries = [] := by
  constructor
  · have hsum : summaryCounts entries = [] := by
      unfold summaryCounts
      induction entries with
      | nil => simp
      | cons e es ih =>
        have he := h e (by simp)
        simp only [List.foldl_cons, he, if_pos rfl]
        exact ih fun x hx => h x (by simp [hx])
    unfold compute_summary
    rw [hsum]
    simp
  · unfold group_consecutive_activities
    have : entries.filter (fun e => e.activity ≠ ExtendedActivity.IDLE) = [] := by
      rw [List.filter_eq_nil_iff]
      intro a ha
      simp [h a ha]
    rw [this]

/-- Witness for C10 at a concrete all-IDLE list. -/
theorem degenerate_input_yields_empty_witness :
    (∀ e ∈ [ActivityEntry.idle (Examples.ts 0)], e.activity = ExtendedActivity.IDLE)
    ∧ compute_summary [ActivityEntry.idle (Examples.ts 0)] = []
    ∧ group_consecutive_activities [ActivityEntry.idle (Examples.ts 0)] = [] := by
  refine ⟨by decide, ?_⟩
  have := degenerate_input_yields_empty [ActivityEntry.idle (Examples.ts 0)] (by decide)
  exact this

end Aggregation

namespace Stats

/-- Bumping one key increments the total count by one. -/
lemma sum_bumpCount (acc : List (ExtendedActivity × Nat)) (a : ExtendedActivity) :
    ((Aggregation.bumpCount acc a).map Prod.snd).sum = ((acc.map Prod.snd).sum) + 1 := by
  induction acc with
  | nil => simp [Aggregation.bumpCount]
  | cons kc rest ih =>
    obtain ⟨k, c⟩ := kc
    by_cases h : k = a
    · simp only [Aggregation.bumpCount, if_pos h, List.map_cons, List.sum_cons]
      omega
    · simp only [Aggregation.bumpCount, if_neg h, List.map_cons, List.sum_cons, ih]
      omega

/-- The counting fold of `compute_day_stats` counts every entry. -/
lemma sum_dayCounts_aux (l : List ActivityEntry) :
    ∀ acc : List (ExtendedActivity × Nat),
    (((l.foldl (fun acc entry => Aggregation.bumpCount acc entry.activity) acc)).map
        Prod.snd).sum
      = (acc.map Prod.snd).sum + l.length := by
  induction l with
  | nil => intro acc; simp
  | cons e es ih =>
    intro acc
    simp only [List.foldl_cons, List.length_cons]
    rw [ih (Aggregation.bumpCount acc e.activity), sum_bumpCount]
    omega

/-- The day-stats counts sum to the number of entries. -/
lemma sum_dayCounts (entries : List ActivityEntry) :
    ((dayCounts entries).map Prod.snd).sum = entries.length := by
  have := sum_dayCounts_aux entries []
  simpa [dayCounts] using this

/-- The counting fold of `compute_summary` counts exactly the non-IDLE
entries. -/
lemma sum_summaryCounts_aux (l : List ActivityEntry) :
    ∀ acc : List (ExtendedActivity × Nat),
    ((l.foldl
        (fun acc entry =>
          if entry.activity = ExtendedActivity.IDLE then acc
          else Aggregation.bumpCount acc entry.activity) acc).map Prod.snd).sum
      = (acc.map Prod.snd).sum
        + (l.filter fun e => e.activity ≠ ExtendedActivity.IDLE).length := by
  induction l with
  | nil => intro acc; simp
  | cons e es ih =>
    intro acc
    by_cases h : e.activity = ExtendedActivity.IDLE
    · simp only [List.foldl_cons, if_pos h, List.filter_cons]
      rw [ih acc]
      simp [h]
    · simp only [List.foldl_cons, if_neg h, List.filter_cons]
      rw [ih (Aggregation.bumpCount acc e.activity), sum_bumpCount]
      simp only [h, ne_eq, not_false_iff, decide_not]
      simp
      omega

/-- The summary counts sum to the number of non-IDLE entries. -/
lemma sum_summaryCounts (entries : List ActivityEntry) :
    ((Aggregation.summaryCounts entries).map Prod.snd).sum
      = (entries.filter fun e => e.activity ≠ ExtendedActivity.IDLE).length := by
  have := sum_summaryCounts_aux entries []
  simpa [Aggregation.summaryCounts] using this

/-- Distributing the percentage map over a counts list. -/
lemma sum_map_percentage {α : Type} (A : List (α × Nat)) (t : ℚ) :
    (A.map fun p => ((p.2 : Nat) : ℚ) / t * 100).sum
      = (((A.map Prod.snd).sum : Nat) : ℚ) / t * 100 := by
  induction A with
  | nil => simp
  | cons p rest ih =>
    simp only [List.map_cons, List.sum_cons, ih]
    push_cast
    ring

/-- Sorting the stat records does not change the percentage sum: the sum over
a sorted `map` of stats is the percentage formula applied to the total. -/
lemma sum_sorted_stats (A : List (ExtendedActivity × Nat)) (t : ℚ) :
    (((A.map fun p =>
        ({ activity := extendedActivityValue p.1
           count := p.2
           percentage := ((p.2 : Nat) : ℚ) / t * 100
           category := get_activity_category p.1 } : ActivityStat)).mergeSort
          fun x y => x.percentage ≥ y.percentage).map ActivityStat.percentage).sum
      = (((A.map Prod.snd).sum : Nat) : ℚ) / t * 100 := by
  have hperm :=
    (List.mergeSort_perm
      (A.map fun p =>
        ({ activity := extendedActivityValue p.1
           count := p.2
           percentage := ((p.2 : Nat) : ℚ) / t * 100
           category := get_activity_category p.1 } : ActivityStat))
      fun x y => x.percentage ≥ y.percentage).map ActivityStat.percentage
  rw [hperm.sum_eq, List.map_map]
  exact sum_map_percentage A t

/-- Likewise for the summary records of `compute_summary`. -/
lemma sum_sorted_summary (A : List (ExtendedActivity × Nat)) (t : ℚ) :
    (((A.mergeSort fun x y => x.2 ≥ y.2).map fun p =>
        ({ activity := p.1, percentage := ((p.2 : Nat) : ℚ) / t * 100 } :
          Aggregation.ActivityWithPercentage)).map
        Aggregation.ActivityWithPercentage.percentage).sum
      = (((A.map Prod.snd).sum : Nat) : ℚ) / t * 100 := by
  rw [List.map_map]
  have hperm :=
    (List.mergeSort_perm A fun x y => x.2 ≥ y.2).map
      (Aggregation.ActivityWithPercentage.percentage ∘ fun p =>
        ({ activity := p.1, percentage := ((p.2 : Nat) : ℚ) / t * 100 } :
          Aggregation.ActivityWithPercentage))
  rw [hperm.sum_eq]
  exact sum_map_percentage A t

/-- C2: for every non-empty entry list the percentages of the IDLE-including
breakdown of `compute_day_stats` sum to exactly 100 (rationals model the
float arithmetic), and when additionally no entry is IDLE the percentages of
the IDLE-excluding breakdown of `compute_summary` also sum to exactly 100. -/
theorem percentage_breakdowns_sum_to_100 (date_str : String)
    (entries : List ActivityEntry) (hne : entries ≠ []) :
    ((compute_day_stats date_str entries).activities.map ActivityStat.percentage).sum = 100
    ∧ ((∀ e ∈ entries, e.activity ≠ ExtendedActivity.IDLE) →
        ((Aggregation.compute_summary entries).map
            Aggregation.ActivityWithPercentage.percentage).sum = 100) := by
  have hlen : entries.length ≠ 0 := by simpa [List.length_eq_zero] using hne
  have hcast : ((entries.length : Nat) : ℚ) ≠ 0 := by exact_mod_cast hlen
  constructor
  · unfold compute_day_stats
    rw [if_neg hlen]
    dsimp only
    rw [sum_sorted_stats (dayCounts entries) ((entries.length : Nat) : ℚ)]
    rw [sum_dayCounts]
    rw [div_self hcast]
    norm_num
  · intro hnoidle
    have hfilter : entries.filter (fun e => e.activity ≠ ExtendedActivity.IDLE) = entries := by
      rw [List.filter_eq_self]
      intro a ha
      simpa using hnoidle a ha
    have htotal : ((Aggregation.summaryCounts entries).map Prod.snd).sum = entries.length := by
      rw [sum_summaryCounts, hfilter]
    unfold Aggregation.compute_summary
    dsimp only
    rw [htotal]
    rw [if_neg hlen]
    rw [sum_sorted_summary (Aggregation.summaryCounts entries) ((entries.length : Nat) : ℚ)]
    rw [htotal]
    rw [div_self hcast]
    norm_num

/-- Witness for C2 at the spec's concrete IDLE-free example sequence. -/
theorem percentage_breakdowns_sum_to_100_witness :
    Examples.exampleEntries ≠ []
    ∧ ((compute_day_stats "2026-01-05" Examples.exampleEntries).activities.map
        ActivityStat.percentage).sum = 100
    ∧ ((Aggregation.compute_summary Examples.exampleEntries).map
        Aggregation.ActivityWithPercentage.percentage).sum = 100 := by
  have h := percentage_breakdowns_sum_to_100 "2026-01-05" Examples.exampleEntries (by decide)
  exact ⟨by decide, h.1, h.2 (by decide)⟩

end Stats

namespace Gate

/-- C3: on Saturday/Sunday (weekday 5 or 6, with 0 = Monday) or with the time
of day outside the configured window, the tracking gate evaluates to the
OutsideWorkHours state (toggle disallowed) regardless of the pause flag;
otherwise it evaluates to ManuallyPaused (toggle allowed) when the pause flag
is present and Active (toggle allowed) when it is absent. -/
theorem tracking_gate_evaluation (cfg : WorkHoursConfig) (t : CheckTime) (paused : Bool) :
    get_tracking_state cfg t paused
      = (if t.weekday.val = 5 ∨ t.weekday.val = 6 ∨ t.timeOfDay < cfg.work_start_hour ∨
            t.timeOfDay ≥ cfg.work_end_hour
         then TrackingState.not_within_work_hours (get_status_message cfg t)
         else if paused then TrackingState.paused_manual else TrackingState.active)
    ∧ ((get_tracking_state cfg t paused).can_toggle = true
        ↔ ¬(t.weekday.val = 5 ∨ t.weekday.val = 6 ∨ t.timeOfDay < cfg.work_start_hour ∨
            t.timeOfDay ≥ cfg.work_end_hour)) := by
  have hlt := t.weekday.isLt
  unfold get_tracking_state is_within_work_hours
  by_cases h1 : t.weekday.val > 4
  · have hc : t.weekday.val = 5 ∨ t.weekday.val = 6 ∨ t.timeOfDay < cfg.work_start_hour ∨
        t.timeOfDay ≥ cfg.work_end_hour := by omega
    rw [if_pos h1, if_pos hc]
    constructor
    · simp
    · simp [TrackingState.not_within_work_hours, hc]
  · by_cases h2 : t.timeOfDay < cfg.work_start_hour ∨ t.timeOfDay ≥ cfg.work_end_hour
    · have hc : t.weekday.val = 5 ∨ t.weekday.val = 6 ∨ t.timeOfDay < cfg.work_start_hour ∨
          t.timeOfDay ≥ cfg.work_end_hour := by omega
      rw [if_neg h1, if_pos h2, if_pos hc]
      constructor
      · simp
      · simp [TrackingState.not_within_work_hours, hc]
    · have hc : ¬(t.weekday.val = 5 ∨ t.weekday.val = 6 ∨ t.timeOfDay < cfg.work_start_hour ∨
          t.timeOfDay ≥ cfg.work_end_hour) := by omega
      rw [if_neg h1, if_neg h2, if_neg hc]
      constructor
      · simp
      · cases paused <;>
          simp [TrackingState.paused_manual, TrackingState.active, hc]

end Gate

namespace Store

/-- The date of a row is unchanged by the update branch of `insert_activity`. -/
lemma get_insert (db : Database) (now : String) (e : ActivityEntry) (d : String) :
    get_day_record (insert_activity db now e) d
      = if e.timestamp.date = d then
          (match get_day_record db d with
           | some r => some { r with activities := r.activities ++ [e] }
           | none => some { date := d, activities := [e] })
        else get_day_record db d := by
  unfold insert_activity
  cases hfind : db.find? fun r => r.date = e.timestamp.date with
  | some row =>
    simp only [hfind]
    unfold get_day_record
    rw [List.find?_map]
    have hpred :
        ((fun r : DbRow => decide (r.date = d)) ∘ fun r : DbRow =>
          if r.date = e.timestamp.date then
            { r with activities := r.activities ++ [e], updated_at := now }
          else r)
        = fun r : DbRow => decide (r.date = d) := by
      funext r
      by_cases hr : r.date = e.timestamp.date <;> simp [hr, Function.comp]
    rw [hpred]
    by_cases hde : e.timestamp.date = d
    · subst hde
      rw [if_pos rfl]
      rw [hfind]
      have hrow : row.date = e.timestamp.date := by
        have := List.find?_some hfind
        simpa using this
      simp [Option.map_some, hrow]
    · rw [if_neg hde]
      cases hfind2 : db.find? fun r : DbRow => r.date = d with
      | some row2 =>
        have hrow2 : row2.date = d := by
          have := List.find?_some hfind2
          simpa using this
        have hne : ¬ row2.date = e.timestamp.date := by
          rw [hrow2]
          exact fun hcontra => hde hcontra.symm
        simp [Option.map_some, hne]
      | none => simp
  | none =>
    simp only [hfind]
    unfold get_day_record
    rw [List.find?_append]
    by_cases hde : e.timestamp.date = d
    · subst hde
      rw [if_pos rfl, hfind]
      simp [List.find?]
    · rw [if_neg hde]
      have hnew : (List.find? (fun r : DbRow => r.date = d)
          [{ date := e.timestamp.date, activities := [e],
             created_at := now, updated_at := now }]) = none := by
        simp [List.find?, hde]
      rw [hnew]
      cases db.find? fun r : DbRow => r.date = d <;> simp

/-- Folding a sequence of inserts from any store state appends, to the day
record of each date, exactly the inserted entries whose own timestamps carry
that date, in insertion order. -/
lemma get_fold (l : List (ActivityEntry × String)) :
    ∀ (db : Database) (d : String),
    get_day_record (l.foldl (fun db p => insert_activity db p.2 p.1) db) d
      = match get_day_record db d with
        | some r =>
          some { r with activities :=
            r.activities ++ ((l.map Prod.fst).filter fun e => e.timestamp.date = d) }
        | none =>
          if (l.map Prod.fst).filter (fun e => e.timestamp.date = d) = [] then none
          else some { date := d,
                      activities := (l.map Prod.fst).filter fun e => e.timestamp.date = d } := by
  induction l with
  | nil =>
    intro db d
    cases hg : get_day_record db d <;> simp [hg]
  | cons p l' ih =>
    intro db d
    obtain ⟨e, now⟩ := p
    simp only [List.foldl_cons]
    rw [ih (insert_activity db now e) d]
    rw [get_insert db now e d]
    by_cases hde : e.timestamp.date = d
    · rw [if_pos hde]
      cases hg : get_day_record db d with
      | some r =>
        simp only [hg, List.map_cons, List.filter_cons, hde]
        simp [List.append_assoc]
      | none =>
        simp only [hg, List.map_cons, List.filter_cons, hde]
        simp
    · rw [if_neg hde]
      have hfc : (e :: l'.map Prod.fst).filter (fun x => x.timestamp.date = d)
          = (l'.map Prod.fst).filter fun x => x.timestamp.date = d := by
        simp [List.filter_cons, hde]
      cases hg : get_day_record db d with
      | some r => simp [hg, hfc]
      | none =>
        simp only [hg, List.map_cons]
        rw [hfc]

/-- C5: `insert_activity` keys each entry by the calendar date of the entry's
own timestamp, not the wall clock at write time (the wall-clock strings in
the fold are arbitrary and absent from the result): after any sequence of
inserts into an empty store, `get_day_record d` returns exactly the inserted
entries whose timestamps carry date `d`, in insertion order, as one
`DayRecord` — so same-date inserts accumulate in one record and inserts on
two different dates produce two independent records. -/
theorem insert_keys_by_entry_timestamp_date (l : List (ActivityEntry × String)) (d : String) :
    get_day_record (l.foldl (fun db p => insert_activity db p.2 p.1) []) d
      = if (l.map Prod.fst).filter (fun e => e.timestamp.date = d) = [] then none
        else some { date := d,
                    activities := (l.map Prod.fst).filter fun e => e.timestamp.date = d } := by
  have h := get_fold l [] d
  simpa [get_day_record] using h

end Store

namespace Tick

/-- C4: whenever the tick reaches the capture path and the active-screen hint
step does not itself raise, a failure of either classification stage
(`stageA = none`, any caught Stage-A failure, or `stageB = none`, any caught
Stage-B failure) makes `take_screenshot_and_describe` return no result, and
the tick persists nothing: no entry is stored and the store is unchanged. -/
theorem classification_failure_aborts_tick (env : TickEnv) (db : Store.Database)
    (hgate : env.force = true ∨
      (Gate.is_within_work_hours env.cfg env.checkTime = true ∧ env.stopFlagExists = false))
    (hidle : Idle.is_system_idle env.idleThreshold env.idleTime = false)
    (hhint : env.capture.screenshotCount ≤ 1 ∨
      ∃ k, Window.get_active_screen_number env.capture.windowQuery env.capture.monitors
        = .ok k)
    (hfail : env.capture.stageA = none ∨ env.capture.stageB = none) :
    Classifier.take_screenshot_and_describe env.capture env.now = .ok none
    ∧ (trackTick env db).1.stored = []
    ∧ (trackTick env db).2 = db
    ∧ (trackTick env db).1.exitCode = 1 := by
  have htake : Classifier.take_screenshot_and_describe env.capture env.now = .ok none := by
    unfold Classifier.take_screenshot_and_describe
    have hstage : ∀ hint : Option Nat,
        (match env.capture.stageA with
         | none => (Except.ok none :
             Except String (Option Classifier.ActivitiesResponseWithTimestamp))
         | some screen_description =>
           match env.capture.stageB with
           | none => .ok none
           | some activities_response =>
             .ok (some
               { main_activity := activities_response.main_activity
                 reasoning := activities_response.reasoning
                 secondary_context := screen_description.secondary_context
                 timestamp := env.now })) = .ok none := by
      intro hint
      rcases hfail with hA | hB
      · rw [hA]
      · cases hA2 : env.capture.stageA with
        | none => rfl
        | some dsc => rw [hB]
    by_cases hms : env.capture.screenshotCount > 1
    · rcases hhint with h1 | ⟨k, hk⟩
      · omega
      · rw [if_pos hms, hk]
        exact hstage (some k)
    · rw [if_neg hms]
      exact hstage none
  have hstep : trackTick env db = (⟨[], 1, true, true, false⟩, db) := by
    unfold trackTick
    rcases hgate with hf | ⟨hw, hs⟩
    · rw [if_neg (by simp [hf])]
      rw [if_neg (by simp [hf])]
      rw [if_neg (by simp [hidle])]
      rw [htake]
    · rw [if_neg (by simp [hw])]
      rw [if_neg (by simp [hs])]
      rw [if_neg (by simp [hidle])]
      rw [htake]
  exact ⟨htake, by rw [hstep], by rw [hstep], by rw [hstep]⟩

/-- Witness for C4: a tick inside work hours, not idle, with a single-screen
capture and a failing Stage A stores nothing and leaves the store unchanged. -/
theorem classification_failure_aborts_tick_witness :
    Examples.tickEnvFailA.capture.stageA = none
    ∧ Classifier.take_screenshot_and_describe Examples.tickEnvFailA.capture
        Examples.tickEnvFailA.now = .ok none
    ∧ (trackTick Examples.tickEnvFailA []).1.stored = []
    ∧ (trackTick Examples.tickEnvFailA []).2 = [] := by
  have h := classification_failure_aborts_tick Examples.tickEnvFailA []
    (Or.inr ⟨by decide, rfl⟩)
    (by norm_num [Idle.is_system_idle, Examples.tickEnvFailA])
    (Or.inl (by decide))
    (Or.inl rfl)
  exact ⟨rfl, h.1, h.2.1, h.2.2.1⟩

/-- C6: when the gate permits sampling (within work hours with no stop flag,
or force override) and the reported idle time is at least the configured
threshold, the tick stores exactly one entry — the IDLE entry for the tick's
timestamp, with no reasoning — the store receives exactly that insert, and
neither screen capture nor either classification stage is invoked. -/
theorem idle_tick_stores_single_idle_entry (env : TickEnv) (db : Store.Database)
    (hgate : env.force = true ∨
      (Gate.is_within_work_hours env.cfg env.checkTime = true ∧ env.stopFlagExists = false))
    (hidle : ∃ t, env.idleTime = some t ∧ env.idleThreshold ≤ t) :
    (trackTick env db).1.stored = [ActivityEntry.idle env.now]
    ∧ (ActivityEntry.idle env.now).activity = ExtendedActivity.IDLE
    ∧ (ActivityEntry.idle env.now).reasoning = none
    ∧ (trackTick env db).1.captureInvoked = false
    ∧ (trackTick env db).1.classifyInvoked = false
    ∧ (trackTick env db).2
        = Store.insert_activity db env.wallClock (ActivityEntry.idle env.now) := by
  have hsys : Idle.is_system_idle env.idleThreshold env.idleTime = true := by
    obtain ⟨t, ht, hge⟩ := hidle
    simp [Idle.is_system_idle, ht, hge]
  have hstep : trackTick env db
      = (⟨[ActivityEntry.idle env.now], 0, false, false, false⟩,
         Store.insert_activity db env.wallClock (ActivityEntry.idle env.now)) := by
    unfold trackTick
    rcases hgate with hf | ⟨hw, hs⟩
    · rw [if_neg (by simp [hf])]
      rw [if_neg (by simp [hf])]
      rw [if_pos (by simp [hsys])]
    · rw [if_neg (by simp [hw])]
      rw [if_neg (by simp [hs])]
      rw [if_pos (by simp [hsys])]
  refine ⟨by rw [hstep], rfl, rfl, by rw [hstep], by rw [hstep], by rw [hstep]⟩

/-- Witness for C6: an in-hours tick with 450s of reported idle time against
the default 300s threshold stores exactly the IDLE entry. -/
theorem idle_tick_stores_single_idle_entry_witness :
    Examples.tickEnvIdle.idleTime = some 450
    ∧ (trackTick Examples.tickEnvIdle []).1.stored
        = [ActivityEntry.idle Examples.tickEnvIdle.now]
    ∧ (trackTick Examples.tickEnvIdle []).1.captureInvoked = false
    ∧ (trackTick Examples.tickEnvIdle []).1.classifyInvoked = false := by
  have h := idle_tick_stores_single_idle_entry Examples.tickEnvIdle []
    (Or.inr ⟨by decide, rfl⟩)
    ⟨450, rfl, by norm_num [Examples.tickEnvIdle]⟩
  exact ⟨rfl, h.1, h.2.2.2.1, h.2.2.2.2.1⟩

end Tick

namespace Window

/-- C8 (against the code as written): when more than one screenshot is
captured and the OS frontmost-window query fails, or the window lies on no
monitor, `get_active_screen_number` raises and the unguarded call in
`take_screenshot_and_describe` propagates the exception instead of degrading
to an "unknown" hint — the classification stages never run and the tick
aborts (crashes) with nothing stored. -/
theorem locator_failure_aborts_tick :
    Classifier.take_screenshot_and_describe Examples.captureQueryFails (Examples.ts 0)
      = .error "AppleScript timed out"
    ∧ Classifier.take_screenshot_and_describe Examples.captureWindowLost (Examples.ts 0)
      = .error "Window not found on any display"
    ∧ (Tick.trackTick Examples.tickEnvQueryFails []).1
      = { stored := [], exitCode := 1, captureInvoked := true,
          classifyInvoked := false, crashed := true }
    ∧ (Tick.trackTick Examples.tickEnvQueryFails []).2 = [] := by
  refine ⟨rfl, ?_, rfl, rfl⟩
  rfl

end Window

namespace Capture

/-- C9 counterexample: if the grab of the second monitor raises after the
first monitor's screenshot has been written, the scope exits (the exception
propagates) with the first artifact still on the filesystem — it is never
deleted, because `__exit__` does not run when `__enter__` raises and
`self.screenshot_paths` was never assigned. -/
theorem midcapture_exception_leaks_artifact :
    (captureLoop [CaptureStepOutcome.produce 1, CaptureStepOutcome.raiseErr "grab failed"]
        [] []).2.1 = [1]
    ∧ (withMultiScreenCapture
        [CaptureStepOutcome.produce 1, CaptureStepOutcome.raiseErr "grab failed"] []
        fun _ => (Except.ok 0 : Except String Nat)).1 = [1]
    ∧ (withMultiScreenCapture
        [CaptureStepOutcome.produce 1, CaptureStepOutcome.raiseErr "grab failed"] []
        fun _ => (Except.ok 0 : Except String Nat)).2 = .error "grab failed" := by
  exact ⟨rfl, rfl, rfl⟩

/-- C9 (amended): when the capture loop itself completes without raising,
every produced artifact is deleted by scope exit on every exit path of the
scope body — normal completion, classifier failure, or unexpected exception,
the body outcome being propagated unchanged. (If the capture itself raises
mid-way, already-produced artifacts are leaked; see the counterexample.) -/
theorem completed_capture_artifacts_deleted {α : Type}
    (steps : List CaptureStepOutcome) (fs : List Nat) (body : List Nat → Except String α)
    (hok : (captureLoop steps fs []).2.2 = none) :
    (∀ f ∈ (captureLoop steps fs []).2.1, f ∉ (withMultiScreenCapture steps fs body).1)
    ∧ (withMultiScreenCapture steps fs body).2 = body (captureLoop steps fs []).2.1 := by
  unfold withMultiScreenCapture
  rcases hcl : captureLoop steps fs [] with ⟨fs1, paths, err⟩
  rw [hcl] at hok
  simp only at hok
  subst hok
  constructor
  · intro f hf
    simp only [removeAll, List.mem_filter]
    intro hcontra
    have h2 := hcontra.2
    simp only [List.elem_eq_mem, Bool.not_eq_true, decide_eq_false_iff_not] at h2
    exact (of_decide_eq_true h2) (by simpa using hf)
  · rfl

/-- Witness for C9 (amended) at a concrete two-monitor capture whose body
raises: both artifacts are gone from the filesystem at scope exit. -/
theorem completed_capture_artifacts_deleted_witness :
    (captureLoop [CaptureStepOutcome.produce 1, CaptureStepOutcome.produce 2] [] []).2.2 = none
    ∧ 1 ∉ (withMultiScreenCapture [CaptureStepOutcome.produce 1, CaptureStepOutcome.produce 2]
        [] fun _ => (Except.error "classifier failed" : Except String Nat)).1 := by
  refine ⟨rfl, ?_⟩
  exact (completed_capture_artifacts_deleted
    [CaptureStepOutcome.produce 1, CaptureStepOutcome.produce 2] []
    (fun _ => (Except.error "classifier failed" : Except String Nat)) rfl).1 1 (by decide)

end Capture

end Zeit
